import Mathlib

/-!
Shallow embedding of `src/utils.py` from the Portland rent-board LTR
pipeline, together with theorems settling the frozen claims about it.

Modelling conventions:
* Python/pandas floating-point values are modelled as exact rationals `ℚ`
  extended with `+inf`, `-inf` and `NaN` (the `FVal` type); rounding and
  overflow of IEEE doubles are outside the model.
* A pandas `DataFrame` is a `List` of records; column assignment is record
  extension, and whole-table operations are maps over the list.
* `pd.Series` comparisons against a constant follow pandas semantics:
  comparisons involving `NaN` are false.
-/

/-- A pandas float cell: a finite rational, an infinity, or `NaN`
(the missing-value sentinel). -/
inductive FVal where
  | num (q : ℚ)
  | posInf
  | negInf
  | nan
deriving DecidableEq, Repr

namespace FVal

/-- Float division of finite values, as pandas performs it: a nonzero
numerator over zero gives a signed infinity, `0/0` gives `NaN`. -/
def qdiv (a b : ℚ) : FVal :=
  if b ≠ 0 then num (a / b)
  else if 0 < a then posInf
  else if a < 0 then negInf
  else nan

/-- Multiplication of a float cell by a positive finite constant
(used for the `* 100` turning ratios into percentages). -/
def scalePos (c : ℚ) (v : FVal) : FVal :=
  match v with
  | num a => num (c * a)
  | posInf => posInf
  | negInf => negInf
  | nan => nan

/-- `df.replace([np.inf, -np.inf], np.nan)` on one cell. -/
def replaceInf (v : FVal) : FVal :=
  match v with
  | posInf => nan
  | negInf => nan
  | v => v

/-- Whether the cell is `+inf` or `-inf`. -/
def isInf (v : FVal) : Bool :=
  match v with
  | posInf => true
  | negInf => true
  | _ => false

/-- pandas `series <= c`: `NaN` and `+inf` compare false, `-inf` true. -/
def fle (v : FVal) (c : ℚ) : Bool :=
  match v with
  | num a => decide (a ≤ c)
  | negInf => true
  | _ => false

/-- pandas `series >= c`: `NaN` and `-inf` compare false, `+inf` true. -/
def fge (v : FVal) (c : ℚ) : Bool :=
  match v with
  | num a => decide (c ≤ a)
  | posInf => true
  | _ => false

end FVal

/-! ### Field normalizer (`dollars` / `float0`) -/

/-- Value of a digit string, most significant digit first. -/
def digitsVal (l : List Char) : ℕ :=
  l.foldl (fun a c => 10 * a + (c.toNat - 48)) 0

/-- `x.replace("$", "").replace(",", "")`: two character-removal passes. -/
def stripCurrency (s : String) : List Char :=
  ((s.data.filter fun c => c ≠ '$').filter fun c => c ≠ ',')

/-- The whitespace characters Python's `float()` strips around its input
(ASCII: space, tab, LF, CR, VT, FF; non-ASCII whitespace is outside the
model). -/
def pyIsSpace (c : Char) : Bool :=
  c = ' ' || c = '\t' || c = '\n' || c = '\r' || c = '\x0b' || c = '\x0c'

/-- Strip leading and trailing whitespace, as `float()` does. -/
def stripSpaces (cs : List Char) : List Char :=
  ((cs.dropWhile pyIsSpace).reverse.dropWhile pyIsSpace).reverse

/-- Case-insensitive match of the input against a lowercase-letter word,
as `float()` matches its `inf`/`infinity`/`nan` literals. -/
def matchCI : List Char → List Char → Bool
  | [], [] => true
  | c :: cs, d :: ds => (c == d || c == d.toUpper) && matchCI cs ds
  | _, _ => false

/-- A digit or the `_` digit-group separator accepted inside numeric
literals since Python 3.6. -/
def isDigitU (c : Char) : Bool :=
  c.isDigit || c = '_'

/-- Continuation of a digit run already begun with a digit: digits, with
each `_` between digits (`after` is true immediately after an `_`, where
only a digit may follow and the run may not end). -/
def underscoreOk (after : Bool) : List Char → Bool
  | [] => !after
  | c :: rest =>
    if c = '_' then !after && underscoreOk true rest
    else c.isDigit && underscoreOk false rest

/-- A valid underscore-grouped digit run: nonempty, starts with a digit,
underscores only between digits (`1_000` yes; `_1`, `1_`, `1__2` no). -/
def validUnder : List Char → Bool
  | [] => false
  | c :: rest => c.isDigit && underscoreOk false rest

/-- The digits of a run with its group separators removed. -/
def noUnder (l : List Char) : List Char :=
  l.filter fun c => c ≠ '_'

/-- The body of `float()` after whitespace stripping: optional sign, then
a case-insensitive `inf`/`infinity` or `nan` literal, or a decimal
literal (integer digits, optional fractional part, optional decimal
exponent, single `_` separators allowed between digits). -/
def pyFloatCore (cs : List Char) : Option FVal :=
  let neg : Bool := decide (cs.head? = some '-')
  let cs1 := if cs.head? = some '-' ∨ cs.head? = some '+' then cs.tail else cs
  if matchCI cs1 ['i', 'n', 'f'] || matchCI cs1 ['i', 'n', 'f', 'i', 'n', 'i', 't', 'y'] then
    some (if neg then FVal.negInf else FVal.posInf)
  else if matchCI cs1 ['n', 'a', 'n'] then
    some FVal.nan
  else
    let sign : ℚ := if neg then -1 else 1
    let ip := cs1.takeWhile isDigitU
    let rest := cs1.dropWhile isDigitU
    let hasDot := rest.head? = some '.'
    let fp := if hasDot then rest.tail.takeWhile isDigitU else []
    let rest2 := if hasDot then rest.tail.dropWhile isDigitU else rest
    if (ip.isEmpty && fp.isEmpty) || !(ip.isEmpty || validUnder ip)
        || !(fp.isEmpty || validUnder fp) then none
    else
      let fpd := noUnder fp
      let mant : ℚ := sign * ((digitsVal (noUnder ip) : ℚ)
          + (digitsVal fpd : ℚ) / (10 : ℚ) ^ fpd.length)
      if rest2.isEmpty then some (FVal.num mant)
      else if rest2.head? = some 'e' ∨ rest2.head? = some 'E' then
        let r := rest2.tail
        let esign : ℤ := if r.head? = some '-' then -1 else 1
        let r2 := if r.head? = some '-' ∨ r.head? = some '+' then r.tail else r
        let ed := r2.takeWhile isDigitU
        if !validUnder ed || !(r2.dropWhile isDigitU).isEmpty then none
        else some (FVal.num (mant * (10 : ℚ) ^ (esign * (digitsVal (noUnder ed) : ℤ))))
      else none

/-- Python `float(text)`, with float values taken exactly: strip
surrounding whitespace, then parse a signed `inf`/`infinity`/`nan`
literal or a decimal literal with underscore grouping.  Values are exact
in `ℚ` (IEEE rounding and overflow are outside the model, as are
non-ASCII digits and whitespace).  Returns `none` where `float()` raises
`ValueError`. -/
def pyFloat (input : List Char) : Option FVal :=
  pyFloatCore (stripSpaces input)

/-- `float0(x)`: `float(x)`, or `0` when parsing fails (`float()` results
that are not finite decimals — infinities, `NaN` — pass through). -/
def float0 (cs : List Char) : FVal :=
  (pyFloat cs).getD (FVal.num 0)

/-- `dollars(x)`: strip `$` and `,`, then `float0`. -/
def dollars (s : String) : FVal :=
  float0 (stripCurrency s)

/-- Modelled from the spec: a text that "parses as a decimal number" —
optional sign, integer digits, optional fractional part, optional decimal
exponent — and its exact rational value.  This is the spec's reading of
the parse, to be compared with `pyFloat`, which models what `float()`
actually accepts. -/
def decimalValue? (cs : List Char) : Option ℚ :=
  let sign : ℚ := if cs.head? = some '-' then -1 else 1
  let cs1 := if cs.head? = some '-' ∨ cs.head? = some '+' then cs.tail else cs
  let ip := cs1.takeWhile Char.isDigit
  let rest := cs1.dropWhile Char.isDigit
  let hasDot := rest.head? = some '.'
  let fp := if hasDot then rest.tail.takeWhile Char.isDigit else []
  let rest2 := if hasDot then rest.tail.dropWhile Char.isDigit else rest
  if ip.isEmpty && fp.isEmpty then none
  else
    let mant : ℚ := sign * ((digitsVal ip : ℚ) + (digitsVal fp : ℚ) / (10 : ℚ) ^ fp.length)
    if rest2.isEmpty then some mant
    else if rest2.head? = some 'e' ∨ rest2.head? = some 'E' then
      let r := rest2.tail
      let esign : ℤ := if r.head? = some '-' then -1 else 1
      let r2 := if r.head? = some '-' ∨ r.head? = some '+' then r.tail else r
      let ed := r2.takeWhile Char.isDigit
      if ed.isEmpty || !(r2.dropWhile Char.isDigit).isEmpty then none
      else some (mant * (10 : ℚ) ^ (esign * (digitsVal ed : ℤ)))
    else none

/-! ### Rental record and per-record pipeline stages -/

/-- One row of the LTR dataframe (the columns the pipeline reads).
Monetary columns hold finite parsed currency values — what the `dollars`
converter returns on ordinary currency text — and the bedroom count the
output of `int0`. -/
structure Row where
  LICENSENUMBER : String
  unitNumber1 : String
  PARCELNUMBER : String
  unitDesc2 : String
  BaseRent1 : ℚ
  CurrentRent1 : ℚ
  PreviousRent : ℚ
  nbrBedRms1 : ℤ
deriving DecidableEq, Repr

/-- `add_exempt`: `(unitDesc2 != 'None of the above') & (unitDesc2 != '(Nothing Selected)')`. -/
def add_exempt_core (r : Row) : Bool :=
  decide (r.unitDesc2 ≠ "None of the above") && decide (r.unitDesc2 ≠ "(Nothing Selected)")

/-- The six columns added by `add_increases`. -/
structure Inc where
  Rent_Inc_base : FVal
  Rent_Inc_base_percent : FVal
  Rent_Inc : FVal
  Rent_Inc_per_BedRms : FVal
  Rent_Inc_percent : FVal
  Rent_per_BedRms : FVal
deriving DecidableEq, Repr

/-- `df["nbrBedRms1"].replace(0, 1)`: the per-bedroom denominator. -/
def bedroomsDenom (b : ℤ) : ℤ :=
  if b = 0 then 1 else b

/-- The column arithmetic of `add_increases`, before the infinity cleanup. -/
def add_increases_raw (r : Row) : Inc :=
  let rib : ℚ := r.CurrentRent1 - r.BaseRent1
  let ri : ℚ := r.CurrentRent1 - r.PreviousRent
  { Rent_Inc_base := FVal.num rib
    Rent_Inc_base_percent := FVal.scalePos 100 (FVal.qdiv rib r.BaseRent1)
    Rent_Inc := FVal.num ri
    Rent_Inc_per_BedRms := FVal.qdiv ri ((bedroomsDenom r.nbrBedRms1 : ℤ) : ℚ)
    Rent_Inc_percent := FVal.scalePos 100 (FVal.qdiv ri r.PreviousRent)
    Rent_per_BedRms := FVal.qdiv r.CurrentRent1 ((bedroomsDenom r.nbrBedRms1 : ℤ) : ℚ) }

/-- `df = df.replace([np.inf, -np.inf], np.nan)` restricted to the columns
of `Inc` (the original columns of `Row` are finite rationals, on which the
whole-table replacement is the identity). -/
def Inc.replaceInfAll (i : Inc) : Inc :=
  { Rent_Inc_base := i.Rent_Inc_base.replaceInf
    Rent_Inc_base_percent := i.Rent_Inc_base_percent.replaceInf
    Rent_Inc := i.Rent_Inc.replaceInf
    Rent_Inc_per_BedRms := i.Rent_Inc_per_BedRms.replaceInf
    Rent_Inc_percent := i.Rent_Inc_percent.replaceInf
    Rent_per_BedRms := i.Rent_per_BedRms.replaceInf }

/-- `add_increases` on one record: compute the six derived columns, then
apply the whole-table infinity replacement. -/
def add_increases (r : Row) : Inc :=
  (add_increases_raw r).replaceInfAll

/-- Every numeric column of the table after `add_increases`, as float
cells: the original parsed columns followed by the six derived columns. -/
def numericFieldsAfterIncreases (r : Row) : List FVal :=
  let i := add_increases r
  [FVal.num r.BaseRent1, FVal.num r.CurrentRent1, FVal.num r.PreviousRent,
   FVal.num (r.nbrBedRms1 : ℚ),
   i.Rent_Inc_base, i.Rent_Inc_base_percent, i.Rent_Inc,
   i.Rent_Inc_per_BedRms, i.Rent_Inc_percent, i.Rent_per_BedRms]

/-- `group_bedrooms` on one bedroom count: returns the pair
(`nbrBedRms_studio`, `nbrBedRms_grouped`). -/
def group_bedrooms_core (b : ℤ) : ℤ × String :=
  let studio := if b = 0 then 1 else b
  let g1 := if b = 0 then 1 else b
  let g2 := if g1 < 5 then g1 else 5
  let s := toString g2
  (studio, if s = "5" then "5+" else s)

/-- The outlier columns added by `add_outlier_2022` (policy A). -/
structure Flags22 where
  outlier_0_rent : Bool
  outlier_rent : Bool
  outlier_inc_base : Bool
  outlier_inc_prev : Bool
  outlier : Bool
deriving DecidableEq, Repr

/-- `add_outlier_2022` on one record (the rent-change columns are already
present in the pipeline, so the recompute guard is not taken). -/
def add_outlier_2022_core (r : Row) (i : Inc) : Flags22 :=
  let o0 := decide (r.CurrentRent1 = 0)
  let orent := decide (r.CurrentRent1 ≤ 100) || decide ((6500 : ℚ) ≤ r.CurrentRent1)
  let obase := (i.Rent_Inc_base_percent.fle (-10) || i.Rent_Inc_base_percent.fge 40)
      && decide (r.BaseRent1 ≠ 0)
  let oprev := i.Rent_Inc_percent.fle (-10) || i.Rent_Inc_percent.fge 40
  { outlier_0_rent := o0
    outlier_rent := orent
    outlier_inc_base := obase
    outlier_inc_prev := oprev
    outlier := orent || obase || oprev }

/-- The outlier columns added by `add_outlier_2023` (policy B). -/
structure Flags23 where
  outlier_0_rent : Bool
  outlier_rent : Bool
  outlier_inc_prev : Bool
  outlier : Bool
deriving DecidableEq, Repr

/-- `add_outlier_2023` on one record. -/
def add_outlier_2023_core (r : Row) (i : Inc) : Flags23 :=
  let o0 := decide (r.CurrentRent1 = 0)
  let orent := (decide ((0 : ℚ) < r.CurrentRent1) && decide (r.CurrentRent1 ≤ 250))
      || decide ((4000 : ℚ) ≤ r.CurrentRent1)
  let oprev := i.Rent_Inc_percent.fle (-15) || i.Rent_Inc_percent.fge 65
  { outlier_0_rent := o0
    outlier_rent := orent
    outlier_inc_prev := oprev
    outlier := o0 || orent || oprev }

/-! ### Table-level pipeline stages -/

/-- A record after `add_exempt`. -/
structure RowE where
  row : Row
  exempt : Bool
deriving DecidableEq, Repr

/-- A record after `add_increases`. -/
structure RowI where
  rowE : RowE
  inc : Inc
deriving DecidableEq, Repr

/-- A record after `group_bedrooms`. -/
structure RowG where
  rowI : RowI
  nbrBedRms_studio : ℤ
  nbrBedRms_grouped : String
deriving DecidableEq, Repr

/-- A record after `add_outlier_2022`. -/
structure RowO22 where
  rowG : RowG
  flags : Flags22
deriving DecidableEq, Repr

/-- A record after `add_outlier_2023`. -/
structure RowO23 where
  rowG : RowG
  flags : Flags23
deriving DecidableEq, Repr

/-- `add_exempt` over the whole table. -/
def add_exempt_table (t : List Row) : List RowE :=
  t.map fun r => ⟨r, add_exempt_core r⟩

/-- `add_increases` over the whole table. -/
def add_increases_table (t : List RowE) : List RowI :=
  t.map fun e => ⟨e, add_increases e.row⟩

/-- `group_bedrooms` over the whole table. -/
def group_bedrooms_table (t : List RowI) : List RowG :=
  t.map fun i =>
    ⟨i, (group_bedrooms_core i.rowE.row.nbrBedRms1).1,
        (group_bedrooms_core i.rowE.row.nbrBedRms1).2⟩

/-- `add_outlier_2022` over the whole table (the `Rent_Inc` column is
present, so the recompute branch is skipped). -/
def add_outlier_2022_table (t : List RowG) : List RowO22 :=
  t.map fun g => ⟨g, add_outlier_2022_core g.rowI.rowE.row g.rowI.inc⟩

/-- `add_outlier_2023` over the whole table. -/
def add_outlier_2023_table (t : List RowG) : List RowO23 :=
  t.map fun g => ⟨g, add_outlier_2023_core g.rowI.rowE.row g.rowI.inc⟩

/-! ### Ward joiner (`add_ward`) -/

/-- One row of the parcels lookup table (`parcels_ward_gis.csv`). -/
structure LRow where
  IAS_PARCEL_ID : String
  Ward_GIS : ℤ
deriving DecidableEq, Repr

/-- The sort key of `parcels.sort_values("Ward_GIS")`. -/
def wardLe (a b : LRow) : Prop :=
  a.Ward_GIS ≤ b.Ward_GIS

instance : DecidableRel wardLe := fun a b =>
  inferInstanceAs (Decidable (a.Ward_GIS ≤ b.Ward_GIS))

instance : IsTotal LRow wardLe :=
  ⟨fun a b => Int.le_total a.Ward_GIS b.Ward_GIS⟩

instance : IsTrans LRow wardLe :=
  ⟨fun _ _ _ h h' => le_trans h h'⟩

/-- `drop_duplicates("IAS_PARCEL_ID")` (keep the first occurrence of each
key), with the set of already-seen keys made explicit. -/
def dropDupParcelAux (seen : List String) : List LRow → List LRow
  | [] => []
  | x :: xs =>
    if x.IAS_PARCEL_ID ∈ seen then dropDupParcelAux seen xs
    else x :: dropDupParcelAux (x.IAS_PARCEL_ID :: seen) xs

/-- `parcels.sort_values("Ward_GIS").drop_duplicates("IAS_PARCEL_ID")`. -/
def dedupParcels (l : List LRow) : List LRow :=
  dropDupParcelAux [] (l.insertionSort wardLe)

/-- A record of table `α` after the ward merge: the original record plus
the `WARD` column (missing when no parcel matched) and its
`f"{x:.0f}"`-formatted string. -/
structure WardOf (α : Type) where
  base : α
  WARD : Option ℤ
  WARD_str : String
deriving DecidableEq, Repr

/-- `parcels.merge(df, right_on="PARCELNUMBER", left_on="IAS_PARCEL_ID",
how="right")`: every right-table record is kept once per matching parcel
row, or once with a missing ward when no parcel matches (pandas formats a
missing float as `"nan"`). -/
def merge_right (parcels : List LRow) (key : α → String) (t : List α) : List (WardOf α) :=
  t.flatMap fun r =>
    match parcels.filter fun p => p.IAS_PARCEL_ID = key r with
    | [] => [⟨r, none, "nan"⟩]
    | ms => ms.map fun p => ⟨r, some p.Ward_GIS, toString p.Ward_GIS⟩

/-- `add_ward`: deduplicate the lookup table, then right-merge it onto the
record table. -/
def add_ward (parcels : List LRow) (key : α → String) (t : List α) : List (WardOf α) :=
  merge_right (dedupParcels parcels) key t

/-! ### `get_data` / `subset_stats` -/

/-- `add_exempt`, `add_increases` and `group_bedrooms` chained, as
`get_data` runs them before the outlier step. -/
def pipelineCore (t : List Row) : List RowG :=
  group_bedrooms_table (add_increases_table (add_exempt_table t))

/-- The `if outlier_method == "2022" ... elif ... "2023"` step of
`get_data`: the `outlier` column (as a list parallel to the rows) is added
only for the two recognized method strings; any other string leaves the
table without an `outlier` column. -/
def applyOutlierStep (outlier_method : String) (t : List RowG) :
    List RowG × Option (List Bool) :=
  if outlier_method = "2022" then
    (t, some ((add_outlier_2022_table t).map fun o => o.flags.outlier))
  else if outlier_method = "2023" then
    (t, some ((add_outlier_2023_table t).map fun o => o.flags.outlier))
  else (t, none)

/-- `subset_stats(df)`: its first use of the table is `df[~df["outlier"]]`,
which raises `KeyError` when the `outlier` column is absent; with the
column present it divides by `N = df.shape[0]`, raising on an empty
table.  Modelled in `Except`, with errors naming the Python exception. -/
def subset_stats_model (t : List RowG) (outlierCol : Option (List Bool)) :
    Except String Unit :=
  match outlierCol with
  | none => Except.error "KeyError: outlier"
  | some _ =>
    if t.length = 0 then Except.error "ZeroDivisionError: division by zero"
    else Except.ok ()

/-- `get_data` after the CSV load, on the default `ward=False, geo=False`
path: run the enrichment stages, conditionally add the outlier columns,
then run `subset_stats` (whose exception, if any, propagates) and return
the enriched table. -/
def get_data_model (outlier_method : String) (t : List Row) :
    Except String (List RowG × Option (List Bool)) :=
  let tg := pipelineCore t
  let step := applyOutlierStep outlier_method tg
  match subset_stats_model step.1 step.2 with
  | Except.error e => Except.error e
  | Except.ok _ => Except.ok step

/-! ### Helper lemmas -/

lemma FVal.isInf_replaceInf (v : FVal) : v.replaceInf.isInf = false := by
  cases v <;> rfl

lemma bedroomsDenom_ne_zero (b : ℤ) : bedroomsDenom b ≠ 0 := by
  unfold bedroomsDenom
  split_ifs with h
  · omega
  · exact h

lemma bedroomsDenom_eq_max (b : ℤ) (h : 0 ≤ b) : bedroomsDenom b = max b 1 := by
  unfold bedroomsDenom
  split_ifs with hb
  · subst hb; rfl
  · have h1 : 1 ≤ b := by omega
    rw [max_eq_left h1]

lemma FVal.qdiv_of_ne_zero {a b : ℚ} (h : b ≠ 0) : FVal.qdiv a b = FVal.num (a / b) := by
  unfold FVal.qdiv
  rw [if_pos h]

/-- Division by zero followed by the `* 100` scaling and the infinity
replacement always yields the missing sentinel. -/
lemma scale_replace_qdiv_zero (a : ℚ) :
    ((FVal.qdiv a 0).scalePos 100).replaceInf = FVal.nan := by
  unfold FVal.qdiv
  rw [if_neg (by simp)]
  split_ifs <;> rfl

lemma add_increases_Rent_Inc_base (r : Row) :
    (add_increases r).Rent_Inc_base = FVal.num (r.CurrentRent1 - r.BaseRent1) := rfl

lemma add_increases_Rent_Inc_base_percent (r : Row) :
    (add_increases r).Rent_Inc_base_percent
      = ((FVal.qdiv (r.CurrentRent1 - r.BaseRent1) r.BaseRent1).scalePos 100).replaceInf := rfl

lemma add_increases_Rent_Inc (r : Row) :
    (add_increases r).Rent_Inc = FVal.num (r.CurrentRent1 - r.PreviousRent) := rfl

lemma add_increases_Rent_Inc_per_BedRms (r : Row) :
    (add_increases r).Rent_Inc_per_BedRms
      = (FVal.qdiv (r.CurrentRent1 - r.PreviousRent)
          ((bedroomsDenom r.nbrBedRms1 : ℤ) : ℚ)).replaceInf := rfl

lemma add_increases_Rent_Inc_percent (r : Row) :
    (add_increases r).Rent_Inc_percent
      = ((FVal.qdiv (r.CurrentRent1 - r.PreviousRent) r.PreviousRent).scalePos 100).replaceInf := rfl

lemma add_increases_Rent_per_BedRms (r : Row) :
    (add_increases r).Rent_per_BedRms
      = (FVal.qdiv r.CurrentRent1 ((bedroomsDenom r.nbrBedRms1 : ℤ) : ℚ)).replaceInf := rfl

/-- The `Rent_Inc_percent` column after `add_increases`: a finite
percentage when a previous rent was on file, the missing sentinel
otherwise. -/
lemma rent_inc_percent_eq (r : Row) :
    (add_increases r).Rent_Inc_percent =
      if r.PreviousRent ≠ 0 then
        FVal.num (100 * ((r.CurrentRent1 - r.PreviousRent) / r.PreviousRent))
      else FVal.nan := by
  rw [add_increases_Rent_Inc_percent]
  split_ifs with h
  · rw [FVal.qdiv_of_ne_zero h]
    rfl
  · push_neg at h
    rw [h]
    exact scale_replace_qdiv_zero _

/-- The per-bedroom columns after `add_increases` are finite, with the
zero-replaced denominator. -/
lemma per_bedroom_eq (r : Row) :
    (add_increases r).Rent_Inc_per_BedRms
        = FVal.num ((r.CurrentRent1 - r.PreviousRent) / ((bedroomsDenom r.nbrBedRms1 : ℤ) : ℚ))
    ∧ (add_increases r).Rent_per_BedRms
        = FVal.num (r.CurrentRent1 / ((bedroomsDenom r.nbrBedRms1 : ℤ) : ℚ)) := by
  have hd : ((bedroomsDenom r.nbrBedRms1 : ℤ) : ℚ) ≠ 0 := by
    exact_mod_cast bedroomsDenom_ne_zero r.nbrBedRms1
  rw [add_increases_Rent_Inc_per_BedRms, add_increases_Rent_per_BedRms,
    FVal.qdiv_of_ne_zero hd, FVal.qdiv_of_ne_zero hd]
  exact ⟨rfl, rfl⟩

/-! ### Claim theorems -/

/-- C1: under policy A (`add_outlier_2022`), for every record the aggregate
`outlier` flag equals `outlier_rent OR outlier_inc_base OR outlier_inc_prev`
(the `outlier_0_rent` flag is not a disjunct), and a record with current
rent 0 satisfies `outlier_rent` (since `0 ≤ 100`) and hence the aggregate. -/
theorem claim_C1_policyA_aggregate (r : Row) :
    (add_outlier_2022_core r (add_increases r)).outlier
      = ((add_outlier_2022_core r (add_increases r)).outlier_rent
        || (add_outlier_2022_core r (add_increases r)).outlier_inc_base
        || (add_outlier_2022_core r (add_increases r)).outlier_inc_prev)
    ∧ (r.CurrentRent1 = 0 →
        (add_outlier_2022_core r (add_increases r)).outlier_rent = true
        ∧ (add_outlier_2022_core r (add_increases r)).outlier = true) := by
  refine ⟨rfl, fun h => ?_⟩
  have hrent : (add_outlier_2022_core r (add_increases r)).outlier_rent = true := by
    simp only [add_outlier_2022_core, h, Bool.or_eq_true, decide_eq_true_eq]
    left
    norm_num
  refine ⟨hrent, ?_⟩
  simp only [add_outlier_2022_core] at hrent ⊢
  rw [hrent]
  rfl

/-- C1 witness: a concrete record with current rent 0 is flagged
`outlier_rent` and aggregate-`outlier` under policy A. -/
theorem claim_C1_policyA_aggregate_witness :
    (add_outlier_2022_core ⟨"L", "U", "P", "d", 0, 0, 100, 1⟩
        (add_increases ⟨"L", "U", "P", "d", 0, 0, 100, 1⟩)).outlier_rent = true
    ∧ (add_outlier_2022_core ⟨"L", "U", "P", "d", 0, 0, 100, 1⟩
        (add_increases ⟨"L", "U", "P", "d", 0, 0, 100, 1⟩)).outlier = true :=
  (claim_C1_policyA_aggregate ⟨"L", "U", "P", "d", 0, 0, 100, 1⟩).2 rfl

/-- C2: under policy B (`add_outlier_2023`), for every record:
`outlier_0_rent` iff the current rent is 0; `outlier_rent` iff the current
rent is in `(0, 250]` or at least 4000; `outlier_inc_prev` iff the rent
increase percentage is a (present) number at most −15 or at least 65; and
the aggregate `outlier` is the disjunction of the three, the zero-rent
flag included. -/
theorem claim_C2_policyB_flags (r : Row) :
    ((add_outlier_2023_core r (add_increases r)).outlier_0_rent = true ↔
        r.CurrentRent1 = 0)
    ∧ ((add_outlier_2023_core r (add_increases r)).outlier_rent = true ↔
        ((0 < r.CurrentRent1 ∧ r.CurrentRent1 ≤ 250) ∨ 4000 ≤ r.CurrentRent1))
    ∧ ((add_outlier_2023_core r (add_increases r)).outlier_inc_prev = true ↔
        (∃ q, (add_increases r).Rent_Inc_percent = FVal.num q ∧ (q ≤ -15 ∨ 65 ≤ q)))
    ∧ (add_outlier_2023_core r (add_increases r)).outlier
      = ((add_outlier_2023_core r (add_increases r)).outlier_0_rent
        || (add_outlier_2023_core r (add_increases r)).outlier_rent
        || (add_outlier_2023_core r (add_increases r)).outlier_inc_prev) := by
  refine ⟨by simp [add_outlier_2023_core], by simp [add_outlier_2023_core], ?_, rfl⟩
  rw [show (add_outlier_2023_core r (add_increases r)).outlier_inc_prev
      = ((add_increases r).Rent_Inc_percent.fle (-15)
        || (add_increases r).Rent_Inc_percent.fge 65) from rfl]
  rw [rent_inc_percent_eq r]
  split_ifs with h
  · simp [FVal.fle, FVal.fge]
  · simp [FVal.fle, FVal.fge]

/-- C3: after `add_increases`, no numeric column of the returned table —
original or derived — holds `+inf` or `-inf`: the whole-table replacement
turned every infinity produced by a zero denominator into the missing
sentinel. -/
theorem claim_C3_no_infinities (r : Row) :
    ∀ v ∈ numericFieldsAfterIncreases r, v.isInf = false := by
  intro v hv
  simp only [numericFieldsAfterIncreases, add_increases, Inc.replaceInfAll,
    List.mem_cons, List.not_mem_nil, or_false] at hv
  rcases hv with rfl | rfl | rfl | rfl | rfl | rfl | rfl | rfl | rfl | rfl
  · rfl
  · rfl
  · rfl
  · rfl
  · exact FVal.isInf_replaceInf _
  · exact FVal.isInf_replaceInf _
  · exact FVal.isInf_replaceInf _
  · exact FVal.isInf_replaceInf _
  · exact FVal.isInf_replaceInf _
  · exact FVal.isInf_replaceInf _

/-- C3 witness: on a record whose base and previous rents are 0 (so both
percentage columns would divide by zero), the `Rent_Inc_base_percent`
cell of the table after `add_increases` is not an infinity. -/
theorem claim_C3_no_infinities_witness :
    (add_increases ⟨"L", "U", "P", "d", 0, 5, 0, 2⟩).Rent_Inc_base_percent.isInf = false :=
  claim_C3_no_infinities ⟨"L", "U", "P", "d", 0, 5, 0, 2⟩
    (add_increases ⟨"L", "U", "P", "d", 0, 5, 0, 2⟩).Rent_Inc_base_percent
    (by simp [numericFieldsAfterIncreases])

/-- Modelled from the spec: `rent_inc_per_bedroom = rent_inc / max(bedrooms, 1)`
(claim C4's formula, with the `max` written as stated). -/
def rent_inc_per_bedroom_specFormula (r : Row) : ℚ :=
  (r.CurrentRent1 - r.PreviousRent) / ((max r.nbrBedRms1 1 : ℤ) : ℚ)

/-- Modelled from the spec: `rent_per_bedroom = current_rent / max(bedrooms, 1)`. -/
def rent_per_bedroom_specFormula (r : Row) : ℚ :=
  r.CurrentRent1 / ((max r.nbrBedRms1 1 : ℤ) : ℚ)

/-- C4 counterexample: the code divides by `nbrBedRms1.replace(0, 1)`, not
by `max(bedrooms, 1)`; on a record with bedroom count −1 and rent increase
5 the code yields −5 while the claimed formula yields 5. -/
theorem claim_C4_counterexample :
    (add_increases ⟨"L", "U", "P", "d", 0, 5, 0, -1⟩).Rent_Inc_per_BedRms
        ≠ FVal.num (rent_inc_per_bedroom_specFormula ⟨"L", "U", "P", "d", 0, 5, 0, -1⟩)
    ∧ (add_increases ⟨"L", "U", "P", "d", 0, 5, 0, -1⟩).Rent_Inc_per_BedRms
        = FVal.num (-5) := by
  have h := (per_bedroom_eq ⟨"L", "U", "P", "d", 0, 5, 0, -1⟩).1
  have hd : ((bedroomsDenom (-1 : ℤ) : ℤ) : ℚ) = -1 := by
    rw [show bedroomsDenom (-1 : ℤ) = -1 from rfl]
    norm_num
  rw [hd] at h
  have hcode : (add_increases ⟨"L", "U", "P", "d", 0, 5, 0, -1⟩).Rent_Inc_per_BedRms
      = FVal.num (-5) := by
    rw [h]
    norm_num
  refine ⟨?_, hcode⟩
  rw [hcode, rent_inc_per_bedroom_specFormula]
  have hmax : ((max (-1 : ℤ) 1 : ℤ) : ℚ) = 1 := by
    rw [show (max (-1 : ℤ) 1 : ℤ) = 1 from rfl]
    norm_num
  rw [hmax]
  simp only [ne_eq, FVal.num.injEq]
  norm_num

/-- C4 (amended): the per-bedroom columns divide by the bedroom count with
0 replaced by 1; this denominator equals `max(bedrooms, 1)` whenever the
bedroom count is non-negative, it is never zero, and a record with 0
bedrooms gets `Rent_per_BedRms = CurrentRent1`. -/
theorem claim_C4_per_bedroom (r : Row) :
    (add_increases r).Rent_Inc_per_BedRms
        = FVal.num ((r.CurrentRent1 - r.PreviousRent) / ((bedroomsDenom r.nbrBedRms1 : ℤ) : ℚ))
    ∧ (add_increases r).Rent_per_BedRms
        = FVal.num (r.CurrentRent1 / ((bedroomsDenom r.nbrBedRms1 : ℤ) : ℚ))
    ∧ (0 ≤ r.nbrBedRms1 →
        (add_increases r).Rent_Inc_per_BedRms = FVal.num (rent_inc_per_bedroom_specFormula r)
        ∧ (add_increases r).Rent_per_BedRms = FVal.num (rent_per_bedroom_specFormula r))
    ∧ (r.nbrBedRms1 = 0 → (add_increases r).Rent_per_BedRms = FVal.num r.CurrentRent1)
    ∧ bedroomsDenom r.nbrBedRms1 ≠ 0 := by
  obtain ⟨h1, h2⟩ := per_bedroom_eq r
  refine ⟨h1, h2, fun hb => ?_, fun hb => ?_, bedroomsDenom_ne_zero _⟩
  · rw [h1, h2, rent_inc_per_bedroom_specFormula, rent_per_bedroom_specFormula,
      bedroomsDenom_eq_max _ hb]
    exact ⟨rfl, rfl⟩
  · rw [h2, bedroomsDenom, if_pos hb]
    norm_num

/-- C4 witness: on a concrete studio record (0 bedrooms, current rent 900)
the amended statement gives `Rent_per_BedRms = 900`, agreeing with the
`max` formula, with a nonzero denominator. -/
theorem claim_C4_per_bedroom_witness :
    (0 : ℤ) ≤ (0 : ℤ)
    ∧ (add_increases ⟨"L", "U", "P", "d", 100, 900, 800, 0⟩).Rent_per_BedRms
        = FVal.num (rent_per_bedroom_specFormula ⟨"L", "U", "P", "d", 100, 900, 800, 0⟩)
    ∧ (add_increases ⟨"L", "U", "P", "d", 100, 900, 800, 0⟩).Rent_per_BedRms
        = FVal.num 900 :=
  ⟨le_refl 0,
   ((claim_C4_per_bedroom ⟨"L", "U", "P", "d", 100, 900, 800, 0⟩).2.2.1 (le_refl 0)).2,
   (claim_C4_per_bedroom ⟨"L", "U", "P", "d", 100, 900, 800, 0⟩).2.2.2.1 rfl⟩

/-- C7: the `exempt` flag is true exactly when the unit description is
neither `"None of the above"` nor `"(Nothing Selected)"`; any other value,
unseen categories included, is exempt. -/
theorem claim_C7_exempt (r : Row) :
    add_exempt_core r = true ↔
      (r.unitDesc2 ≠ "None of the above" ∧ r.unitDesc2 ≠ "(Nothing Selected)") := by
  simp [add_exempt_core]

/-- C8: the bedroom grouper maps 0 to `"1"`, each count 1–4 to its own
string representation, and every count ≥ 5 to `"5+"`; in particular
0 ↦ `"1"`, 3 ↦ `"3"`, 5 ↦ `"5+"`, 12 ↦ `"5+"`. -/
theorem claim_C8_bedroom_grouping :
    ((group_bedrooms_core 0).2 = "1" ∧ (group_bedrooms_core 3).2 = "3"
      ∧ (group_bedrooms_core 5).2 = "5+" ∧ (group_bedrooms_core 12).2 = "5+")
    ∧ (∀ b : ℤ, b = 0 → (group_bedrooms_core b).2 = "1")
    ∧ (∀ b : ℤ, 1 ≤ b → b ≤ 4 → (group_bedrooms_core b).2 = toString b)
    ∧ (∀ b : ℤ, 5 ≤ b → (group_bedrooms_core b).2 = "5+") := by
  refine ⟨by decide, fun b hb => by subst hb; decide, fun b h1 h4 => ?_, fun b h5 => ?_⟩
  · interval_cases b <;> decide
  · have hb0 : ¬b = 0 := by omega
    have hlt : ¬b < 5 := by omega
    simp only [group_bedrooms_core, if_neg hb0, if_neg hlt]
    decide

/-- C8 witness: a 12-bedroom record is grouped as `"5+"`. -/
theorem claim_C8_bedroom_grouping_witness :
    (group_bedrooms_core 12).2 = "5+" :=
  claim_C8_bedroom_grouping.2.2.2 12 (by decide)

/-! ### Currency-parse lemmas for C6 -/

lemma isDigit_ne_sign {c : Char} (h : c.isDigit = true) : c ≠ '-' ∧ c ≠ '+' := by
  constructor <;> intro he <;> subst he <;> simp at h

/-- After stripping `$` and `,` from a string of digits, dollar signs and
commas, only digits remain. -/
lemma stripCurrency_digits {s : String}
    (h : ∀ c ∈ s.data, c.isDigit = true ∨ c = '$' ∨ c = ',') :
    ∀ c ∈ stripCurrency s, c.isDigit = true := by
  intro c hc
  unfold stripCurrency at hc
  have h2 : ¬ (c = ',') := by simpa using List.of_mem_filter hc
  have hc1 : c ∈ s.data.filter fun c => c ≠ '$' := List.mem_of_mem_filter hc
  have h1 : ¬ (c = '$') := by simpa using List.of_mem_filter hc1
  have hmem : c ∈ s.data := List.mem_of_mem_filter hc1
  rcases h c hmem with hd | hd | hd
  · exact hd
  · exact absurd hd h1
  · exact absurd hd h2

lemma ne_of_isDigit {c d : Char} (h : c.isDigit = true) (hd : d.isDigit = false) :
    c ≠ d := by
  intro he
  rw [he, hd] at h
  cases h

lemma pyIsSpace_of_isDigit {c : Char} (h : c.isDigit = true) : pyIsSpace c = false := by
  have h1 := ne_of_isDigit h (by decide : (' ' : Char).isDigit = false)
  have h2 := ne_of_isDigit h (by decide : ('\t' : Char).isDigit = false)
  have h3 := ne_of_isDigit h (by decide : ('\n' : Char).isDigit = false)
  have h4 := ne_of_isDigit h (by decide : ('\r' : Char).isDigit = false)
  have h5 := ne_of_isDigit h (by decide : ('\x0b' : Char).isDigit = false)
  have h6 := ne_of_isDigit h (by decide : ('\x0c' : Char).isDigit = false)
  simp [pyIsSpace, h1, h2, h3, h4, h5, h6]

lemma dropWhile_space_of_digits {l : List Char} (h : ∀ c ∈ l, c.isDigit = true) :
    l.dropWhile pyIsSpace = l := by
  cases l with
  | nil => rfl
  | cons c cs =>
    rw [List.dropWhile_cons, pyIsSpace_of_isDigit (h c (List.mem_cons_self c cs))]
    simp

lemma stripSpaces_of_digits {l : List Char} (h : ∀ c ∈ l, c.isDigit = true) :
    stripSpaces l = l := by
  rw [stripSpaces, dropWhile_space_of_digits h,
    dropWhile_space_of_digits (fun c hc => h c (List.mem_reverse.mp hc))]
  exact List.reverse_reverse l

lemma matchCI_cons_false {c d : Char} (cs ds : List Char) (h1 : c ≠ d)
    (h2 : c ≠ d.toUpper) : matchCI (c :: cs) (d :: ds) = false := by
  show ((c == d || c == d.toUpper) && matchCI cs ds) = false
  simp [h1, h2]

lemma underscoreOk_of_digits {l : List Char} (h : ∀ c ∈ l, c.isDigit = true) :
    underscoreOk false l = true := by
  induction l with
  | nil => rfl
  | cons c cs ih =>
    have hc := h c (List.mem_cons_self c cs)
    rw [underscoreOk, if_neg (ne_of_isDigit hc (by decide)), hc,
      ih (fun d hd => h d (List.mem_cons_of_mem c hd))]
    rfl

lemma validUnder_of_digits {l : List Char} (h : ∀ c ∈ l, c.isDigit = true)
    (hne : l ≠ []) : validUnder l = true := by
  cases l with
  | nil => exact absurd rfl hne
  | cons c cs =>
    rw [validUnder, h c (List.mem_cons_self c cs),
      underscoreOk_of_digits (fun d hd => h d (List.mem_cons_of_mem c hd))]
    rfl

lemma noUnder_of_digits {l : List Char} (h : ∀ c ∈ l, c.isDigit = true) :
    noUnder l = l := by
  rw [noUnder, List.filter_eq_self]
  intro a ha
  simpa using ne_of_isDigit (h a ha) (by decide)

/-- `float()` on a nonempty all-digit string returns its decimal value. -/
lemma pyFloat_digits {l : List Char} (h : ∀ c ∈ l, c.isDigit = true) (hne : l ≠ []) :
    pyFloat l = some (FVal.num ((digitsVal l : ℕ) : ℚ)) := by
  cases l with
  | nil => exact absurd rfl hne
  | cons c cs =>
    have hc : c.isDigit = true := h c (List.mem_cons_self c cs)
    obtain ⟨hcm, hcp⟩ := isDigit_ne_sign hc
    have hU : ∀ d ∈ c :: cs, isDigitU d = true := fun d hd => by
      rw [isDigitU, h d hd]
      rfl
    have hhm : ¬ ((c :: cs).head? = some '-') := by simp [hcm]
    have hhp : ¬ ((c :: cs).head? = some '-' ∨ (c :: cs).head? = some '+') := by
      simp [hcm, hcp]
    have hinf : matchCI (c :: cs) ['i', 'n', 'f'] = false :=
      matchCI_cons_false _ _ (ne_of_isDigit hc (by decide))
        (by rw [show ('i'.toUpper) = 'I' from by decide]
            exact ne_of_isDigit hc (by decide))
    have hinfy : matchCI (c :: cs) ['i', 'n', 'f', 'i', 'n', 'i', 't', 'y'] = false :=
      matchCI_cons_false _ _ (ne_of_isDigit hc (by decide))
        (by rw [show ('i'.toUpper) = 'I' from by decide]
            exact ne_of_isDigit hc (by decide))
    have hnan : matchCI (c :: cs) ['n', 'a', 'n'] = false :=
      matchCI_cons_false _ _ (ne_of_isDigit hc (by decide))
        (by rw [show ('n'.toUpper) = 'N' from by decide]
            exact ne_of_isDigit hc (by decide))
    have htw : (c :: cs).takeWhile isDigitU = c :: cs :=
      List.takeWhile_eq_self_iff.mpr hU
    have hdw : (c :: cs).dropWhile isDigitU = [] :=
      List.dropWhile_eq_nil_iff.mpr hU
    have hvu : validUnder (c :: cs) = true := validUnder_of_digits h (by simp)
    have hnu : noUnder (c :: cs) = c :: cs := noUnder_of_digits h
    rw [pyFloat, stripSpaces_of_digits h]
    unfold pyFloatCore
    rw [if_neg hhp]
    simp only [hinf, hinfy, hnan, Bool.or_self, Bool.false_eq_true, if_false]
    rw [show decide ((c :: cs).head? = some '-') = false by simp [hcm]]
    simp only [htw, hdw, List.head?_nil]
    rw [if_neg (by simp : ¬ ((none : Option Char) = some '.'))]
    simp only [hvu, List.isEmpty_nil, List.isEmpty_cons, Bool.false_and, Bool.or_self,
      Bool.true_or, Bool.or_true, Bool.not_true, Bool.false_or, Bool.or_false,
      Bool.false_eq_true, if_false, if_true, Bool.not_false]
    simp only [hnu]
    rw [show noUnder [] = [] from rfl, show digitsVal [] = 0 from rfl]
    norm_num

/-- C6 counterexample: the stripped text `"inf"` does not parse as a
decimal number, yet `parse_currency("inf")` returns `+inf`, not `0.0`:
Python `float()` accepts more than decimal numbers. -/
theorem claim_C6_counterexample :
    decimalValue? (stripCurrency "inf") = none
    ∧ dollars "inf" = FVal.posInf
    ∧ dollars "inf" ≠ FVal.num 0 := by
  refine ⟨rfl, rfl, ?_⟩
  decide

/-- C6 (amended): the currency parser is total (never raises): on any
string of digits, `$` and `,` with at least one digit it returns the
decimal value of the string with `$` and `,` stripped; `""` and `"abc"`
parse to `0`; and the `0` fallback applies exactly to the strings whose
stripped text `float()` rejects — `float()` accepts more than plain
decimal numbers (signed `inf`/`infinity`/`nan` literals, surrounding
whitespace, underscore-grouped digits), and those parses pass through
instead of becoming `0`. -/
theorem claim_C6_currency :
    (∀ s : String, (∀ c ∈ s.data, c.isDigit = true ∨ c = '$' ∨ c = ',') →
        stripCurrency s ≠ [] →
        dollars s = FVal.num ((digitsVal (stripCurrency s) : ℕ) : ℚ))
    ∧ dollars "" = FVal.num 0
    ∧ dollars "abc" = FVal.num 0
    ∧ (∀ s : String, pyFloat (stripCurrency s) = none → dollars s = FVal.num 0) := by
  refine ⟨fun s hs hne => ?_, rfl, rfl, fun s hp => ?_⟩
  · rw [dollars, float0, pyFloat_digits (stripCurrency_digits hs) hne]
    rfl
  · rw [dollars, float0, hp]
    rfl

/-- C6 witness: `parse_currency("$1,234")` is the decimal value of the
stripped text `1234`. -/
theorem claim_C6_currency_witness :
    dollars "$1,234" = FVal.num ((digitsVal (stripCurrency "$1,234") : ℕ) : ℚ) :=
  claim_C6_currency.1 "$1,234" (by decide) (by decide)

/-! ### Ward-deduplication lemmas for C5 and C9 -/

lemma mem_of_mem_dropDupParcelAux {seen : List String} {l : List LRow} {k : LRow}
    (h : k ∈ dropDupParcelAux seen l) : k ∈ l := by
  induction l generalizing seen with
  | nil => simp [dropDupParcelAux] at h
  | cons x xs ih =>
    by_cases hx : x.IAS_PARCEL_ID ∈ seen
    · rw [dropDupParcelAux, if_pos hx] at h
      exact List.mem_cons_of_mem _ (ih h)
    · rw [dropDupParcelAux, if_neg hx] at h
      rcases List.mem_cons.mp h with rfl | h2
      · exact List.mem_cons_self _ _
      · exact List.mem_cons_of_mem _ (ih h2)

lemma key_not_seen_of_mem_dropDupParcelAux {seen : List String} {l : List LRow} {k : LRow}
    (h : k ∈ dropDupParcelAux seen l) : k.IAS_PARCEL_ID ∉ seen := by
  induction l generalizing seen with
  | nil => simp [dropDupParcelAux] at h
  | cons x xs ih =>
    by_cases hx : x.IAS_PARCEL_ID ∈ seen
    · rw [dropDupParcelAux, if_pos hx] at h
      exact ih h
    · rw [dropDupParcelAux, if_neg hx] at h
      rcases List.mem_cons.mp h with rfl | h2
      · exact hx
      · have h3 := ih h2
        exact fun hs => h3 (List.mem_cons_of_mem _ hs)

lemma nodup_keys_dropDupParcelAux (seen : List String) (l : List LRow) :
    ((dropDupParcelAux seen l).map LRow.IAS_PARCEL_ID).Nodup := by
  induction l generalizing seen with
  | nil => simp [dropDupParcelAux]
  | cons x xs ih =>
    by_cases hx : x.IAS_PARCEL_ID ∈ seen
    · rw [dropDupParcelAux, if_pos hx]
      exact ih seen
    · rw [dropDupParcelAux, if_neg hx]
      simp only [List.map_cons, List.nodup_cons]
      refine ⟨fun hmem => ?_, ih _⟩
      rcases List.mem_map.mp hmem with ⟨k, hk, hkey⟩
      exact key_not_seen_of_mem_dropDupParcelAux hk (hkey ▸ List.mem_cons_self _ _)

lemma exists_key_dropDupParcelAux {seen : List String} {l : List LRow} {r : LRow}
    (hr : r ∈ l) (hs : r.IAS_PARCEL_ID ∉ seen) :
    ∃ k ∈ dropDupParcelAux seen l, k.IAS_PARCEL_ID = r.IAS_PARCEL_ID := by
  induction l generalizing seen with
  | nil => cases hr
  | cons x xs ih =>
    by_cases hx : x.IAS_PARCEL_ID ∈ seen
    · rw [dropDupParcelAux, if_pos hx]
      rcases List.mem_cons.mp hr with rfl | hr2
      · exact absurd hx hs
      · exact ih hr2 hs
    · rw [dropDupParcelAux, if_neg hx]
      rcases List.mem_cons.mp hr with he | hr2
      · exact ⟨x, List.mem_cons_self _ _, (congrArg LRow.IAS_PARCEL_ID he).symm⟩
      · by_cases hk : r.IAS_PARCEL_ID = x.IAS_PARCEL_ID
        · exact ⟨x, List.mem_cons_self _ _, hk.symm⟩
        · have hs2 : r.IAS_PARCEL_ID ∉ (x.IAS_PARCEL_ID :: seen) := by
            intro hmem
            rcases List.mem_cons.mp hmem with he | he
            · exact hk he
            · exact hs he
          obtain ⟨k, hk1, hk2⟩ := ih hr2 hs2
          exact ⟨k, List.mem_cons_of_mem _ hk1, hk2⟩

/-- On a ward-sorted lookup list, the record kept for a parcel has the
least ward value among the records carrying that parcel identifier. -/
lemma ward_min_dropDupParcelAux {seen : List String} {l : List LRow}
    (hsort : List.Sorted wardLe l) {k : LRow} (hk : k ∈ dropDupParcelAux seen l)
    {r : LRow} (hr : r ∈ l) (hkey : r.IAS_PARCEL_ID = k.IAS_PARCEL_ID) :
    k.Ward_GIS ≤ r.Ward_GIS := by
  induction l generalizing seen with
  | nil => cases hr
  | cons x xs ih =>
    have hx1 : ∀ b ∈ xs, wardLe x b := (List.sorted_cons.mp hsort).1
    have hx2 : List.Sorted wardLe xs := (List.sorted_cons.mp hsort).2
    by_cases hx : x.IAS_PARCEL_ID ∈ seen
    · rw [dropDupParcelAux, if_pos hx] at hk
      rcases List.mem_cons.mp hr with rfl | hr2
      · exact absurd (hkey ▸ hx) (key_not_seen_of_mem_dropDupParcelAux hk)
      · exact ih hx2 hk hr2
    · rw [dropDupParcelAux, if_neg hx] at hk
      rcases List.mem_cons.mp hk with rfl | hk2
      · rcases List.mem_cons.mp hr with rfl | hr2
        · exact le_refl _
        · exact hx1 r hr2
      · have hknx : k.IAS_PARCEL_ID ≠ x.IAS_PARCEL_ID := by
          intro he
          exact key_not_seen_of_mem_dropDupParcelAux hk2 (he ▸ List.mem_cons_self _ _)
        rcases List.mem_cons.mp hr with he | hr2
        · have hxk : x.IAS_PARCEL_ID = k.IAS_PARCEL_ID := by
            rw [← he]
            exact hkey
          exact absurd hxk.symm hknx
        · exact ih hx2 hk2 hr2

/-- C5 counterexample: with two lookup rows for parcel `"p"` carrying
wards 3 and 7, the ward join keeps the row with ward 3, not ward 7 as the
claim states (`sort_values` sorts ascending and `drop_duplicates` keeps
the first row). -/
theorem claim_C5_counterexample :
    (dedupParcels [⟨"p", 3⟩, ⟨"p", 7⟩]).map LRow.Ward_GIS = [3]
    ∧ (3 : ℤ) ≠ 7 := by
  constructor
  · rfl
  · decide

/-- C5 (amended): the deduplicated lookup table has pairwise-distinct
parcel identifiers, keeps exactly one row per parcel identifier present
in the input, draws its rows from the input, and the kept row for a
parcel has the LOWEST-sorting ward value among that parcel's rows (so
with wards 3 and 7 for one parcel, ward 3 is kept). -/
theorem claim_C5_dedup_lowest (l : List LRow) :
    ((dedupParcels l).map LRow.IAS_PARCEL_ID).Nodup
    ∧ (∀ r ∈ l, ∃ k ∈ dedupParcels l, k.IAS_PARCEL_ID = r.IAS_PARCEL_ID)
    ∧ (∀ k ∈ dedupParcels l, k ∈ l)
    ∧ (∀ k ∈ dedupParcels l, ∀ r ∈ l, r.IAS_PARCEL_ID = k.IAS_PARCEL_ID →
        k.Ward_GIS ≤ r.Ward_GIS) := by
  refine ⟨nodup_keys_dropDupParcelAux [] _, fun r hr => ?_, fun k hk => ?_, fun k hk r hr hkey => ?_⟩
  · exact exists_key_dropDupParcelAux ((List.mem_insertionSort wardLe).mpr hr)
      (List.not_mem_nil _)
  · exact (List.mem_insertionSort wardLe).mp (mem_of_mem_dropDupParcelAux hk)
  · exact ward_min_dropDupParcelAux (List.sorted_insertionSort wardLe l) hk
      ((List.mem_insertionSort wardLe).mpr hr) hkey

/-- C5 witness: on the concrete two-row lookup table for parcel `"p"`, the
kept row (ward 3) is below both input wards 3 and 7. -/
theorem claim_C5_dedup_lowest_witness :
    (⟨"p", 3⟩ : LRow) ∈ dedupParcels [⟨"p", 3⟩, ⟨"p", 7⟩]
    ∧ (3 : ℤ) ≤ 7 :=
  ⟨by decide,
   (claim_C5_dedup_lowest [⟨"p", 3⟩, ⟨"p", 7⟩]).2.2.2 ⟨"p", 3⟩ (by decide)
     ⟨"p", 7⟩ (by decide) rfl⟩

/-! ### Row-preservation lemmas for C9 -/

lemma length_filter_key_le_one {l : List LRow}
    (h : (l.map LRow.IAS_PARCEL_ID).Nodup) (k : String) :
    (l.filter fun p => p.IAS_PARCEL_ID = k).length ≤ 1 := by
  induction l with
  | nil => simp
  | cons x xs ih =>
    simp only [List.map_cons, List.nodup_cons] at h
    by_cases hx : x.IAS_PARCEL_ID = k
    · rw [List.filter_cons_of_pos (by simpa using hx)]
      have hnil : xs.filter (fun p => p.IAS_PARCEL_ID = k) = [] := by
        rw [List.filter_eq_nil_iff]
        intro p hp hpk
        apply h.1
        rw [List.mem_map]
        exact ⟨p, hp, by simpa [hx] using hpk⟩
      rw [hnil]
      simp
    · rw [List.filter_cons_of_neg (by simpa using hx)]
      exact ih h.2

lemma merge_right_map_base {α : Type} {parcels : List LRow}
    (h : (parcels.map LRow.IAS_PARCEL_ID).Nodup) (key : α → String) (t : List α) :
    (merge_right parcels key t).map WardOf.base = t := by
  induction t with
  | nil => rfl
  | cons r rs ih =>
    rw [merge_right, List.flatMap_cons, List.map_append]
    rw [merge_right] at ih
    rw [ih]
    have h1 := length_filter_key_le_one h (key r)
    rcases hev : parcels.filter fun p => p.IAS_PARCEL_ID = key r with _ | ⟨p, ps⟩
    · rw [hev]
      rfl
    · rw [hev] at h1 ⊢
      cases ps with
      | nil => rfl
      | cons q qs => simp at h1

/-- C9: every pipeline stage (exemption classifier, rent-change
calculator, bedroom grouper, both outlier classifiers, ward joiner)
returns a table whose records project back to exactly the input records:
rows are only extended with new columns, never dropped or reordered — in
particular the right-join of the ward stage keeps records with no parcel
match. -/
theorem claim_C9_rows_preserved :
    (∀ t : List Row, (add_exempt_table t).map RowE.row = t)
    ∧ (∀ t : List RowE, (add_increases_table t).map RowI.rowE = t)
    ∧ (∀ t : List RowI, (group_bedrooms_table t).map RowG.rowI = t)
    ∧ (∀ t : List RowG, (add_outlier_2022_table t).map RowO22.rowG = t)
    ∧ (∀ t : List RowG, (add_outlier_2023_table t).map RowO23.rowG = t)
    ∧ (∀ (α : Type) (key : α → String) (parcels : List LRow) (t : List α),
        (add_ward parcels key t).map WardOf.base = t) := by
  refine ⟨fun t => ?_, fun t => ?_, fun t => ?_, fun t => ?_, fun t => ?_,
    fun α key parcels t => ?_⟩
  · rw [add_exempt_table, List.map_map]
    exact List.map_id _
  · rw [add_increases_table, List.map_map]
    exact List.map_id _
  · rw [group_bedrooms_table, List.map_map]
    exact List.map_id _
  · rw [add_outlier_2022_table, List.map_map]
    exact List.map_id _
  · rw [add_outlier_2023_table, List.map_map]
    exact List.map_id _
  · exact merge_right_map_base (nodup_keys_dropDupParcelAux [] _) key t

/-- C10: for any `outlier_method` other than `"2022"` and `"2023"`, the
outlier step adds no outlier column and `get_data` raises (the `KeyError`
surfacing in `subset_stats`, which needs the `outlier` column) instead of
returning an enriched table. -/
theorem claim_C10_get_data_raises (outlier_method : String) (t : List Row)
    (h1 : outlier_method ≠ "2022") (h2 : outlier_method ≠ "2023") :
    (applyOutlierStep outlier_method (pipelineCore t)).2 = none
    ∧ get_data_model outlier_method t = Except.error "KeyError: outlier" := by
  have hstep : applyOutlierStep outlier_method (pipelineCore t)
      = (pipelineCore t, none) := by
    rw [applyOutlierStep, if_neg h1, if_neg h2]
  refine ⟨by rw [hstep], ?_⟩
  rw [get_data_model, hstep]
  rfl

/-- C10 witness: `get_data` with `outlier_method = "2021"` on a one-record
table adds no outlier column and fails with the `KeyError`. -/
theorem claim_C10_get_data_raises_witness :
    (applyOutlierStep "2021" (pipelineCore [⟨"L", "U", "P", "d", 0, 900, 800, 2⟩])).2 = none
    ∧ get_data_model "2021" [⟨"L", "U", "P", "d", 0, 900, 800, 2⟩]
        = Except.error "KeyError: outlier" :=
  claim_C10_get_data_raises "2021" [⟨"L", "U", "P", "d", 0, 900, 800, 2⟩]
    (by decide) (by decide)
